import Mathlib

/-!
Verification of the document-extraction pipeline in `app/app.py`.

The script loads documents from a directory, groups them by filename
basename, queries a retrieval oracle three times per group (created date,
posted date, summary), and exports the resulting rows to a spreadsheet
and an interactive HTML table.  The external LLM/index stack is modelled
as an opaque oracle function; everything the script itself computes is
embedded below.
-/

set_option autoImplicit false

namespace CVApp

/-- One raw document record as produced by the loader: a content blob plus
a metadata dictionary (modelled as an association list looked up from the
front, like a Python dict with unique keys). -/
structure RawDocumentRecord where
  text : String
  metadata : List (String × String)
deriving DecidableEq, Repr

/-- An oracle response object (`query_engine.query(...)` result): it carries
a display string (what `str(response)` yields) together with further payload
(source nodes, metadata) that the object holds beyond its display text. -/
structure Response where
  display : String
  sourceNodes : List String
deriving DecidableEq, Repr

/-- A value stored in one cell of the output row dictionary.  The Python
dict is heterogeneous: three entries hold strings, the `Summary` entry holds
the raw response object. -/
inductive CellValue where
  | str (s : String)
  | obj (r : Response)
deriving DecidableEq, Repr

/-- One output row, embedding the dict literal built at the end of the
per-group loop body (keys `Source Document`, `Created Date`, `Posted Date`,
`Summary`, in that order). -/
structure ExtractionRecord where
  sourceDocument : CellValue
  createdDate : CellValue
  postedDate : CellValue
  summary : CellValue
deriving DecidableEq, Repr

/-- `d.get(key, default)` on the metadata dict. -/
def dictGet (m : List (String × String)) (key defaultVal : String) : String :=
  match m.lookup key with
  | some v => v
  | none => defaultVal

/-- `os.path.basename`: the suffix of the path after the last slash. -/
def basename (s : String) : String :=
  String.mk (s.toList.foldl (fun acc c => if c = '/' then [] else acc ++ [c]) [])

/-- The grouping key of one record:
`os.path.basename(doc.metadata.get('file_name', 'Unknown File'))`. -/
def keyOf (d : RawDocumentRecord) : String :=
  basename (dictGet d.metadata "file_name" "Unknown File")

/-- One step of the grouping loop body: if `key` is already present append
`d` to its bucket, otherwise add a new bucket at the end (Python dict
insertion order). -/
def insertDoc (groups : List (String × List RawDocumentRecord)) (key : String)
    (d : RawDocumentRecord) : List (String × List RawDocumentRecord) :=
  match groups with
  | [] => [(key, [d])]
  | (k, ds) :: rest =>
      if k = key then (k, ds ++ [d]) :: rest
      else (k, ds) :: insertDoc rest key d

/-- The grouping loop of `extract_content_from_documents` (lines 52-57):
builds `docs_by_filename` in first-seen key order. -/
def docsByFilename (documents : List RawDocumentRecord) :
    List (String × List RawDocumentRecord) :=
  documents.foldl (fun gs d => insertDoc gs (keyOf d) d) []

/-- Python `str.strip()` on the display string: drop whitespace from both
ends. -/
def pyStrip (s : String) : String :=
  String.mk (((s.toList.dropWhile Char.isWhitespace).reverse.dropWhile
    Char.isWhitespace).reverse)

/-- `filename.replace(' ', '%20')`: Python `str.replace` with the
single-character pattern `' '` rewrites each occurrence independently,
left to right. -/
def replaceSpacesAux : List Char → List Char
  | [] => []
  | c :: cs =>
      if c = ' ' then '%' :: '2' :: '0' :: replaceSpacesAux cs
      else c :: replaceSpacesAux cs

/-- The `file_url` computation at line 97 of `app.py`. -/
def replaceSpaces (s : String) : String :=
  String.mk (replaceSpacesAux s.toList)

/-- The first query prompt (lines 74-77), adjacent string literals
concatenated as Python does. -/
def createdDatePrompt : String :=
  "What is the creation date mentioned in this document? Respond with only the date and nothing else."

/-- The second query prompt (lines 81-84). -/
def postedDatePrompt : String :=
  "What is the posted date mentioned in this document? Respond with only the date and nothing else."

/-- The third query prompt (lines 87-90), with the spelling exactly as in
the source. -/
def summaryPrompt : String :=
  "What is the summary in this document? Respond with only summary from Haedlines as bullet points line by line."

/-- The external index/query stack for one group: given the group's record
list (the per-group index built from them) and a prompt, return a response.
Total oracle used for the normal-path claims. -/
def Oracle : Type :=
  List RawDocumentRecord → String → Response

/-- The loop body of `extract_content_from_documents` for one group
(lines 61-106).  Returns the row appended to `extracted_data` together with
the trace of query strings issued against the group's query engine, in
order. -/
def processGroup (oracle : Oracle) (filename : String)
    (docList : List RawDocumentRecord) : ExtractionRecord × List String :=
  let query := oracle docList
  let q1 := createdDatePrompt
  let createdDateResponse := query q1
  let createdDate := pyStrip createdDateResponse.display
  let q2 := postedDatePrompt
  let postedDateResponse := query q2
  let q3 := summaryPrompt
  let summaryResponse := query q3
  let postedDate := pyStrip postedDateResponse.display
  let fileUrl := replaceSpaces filename
  let markdownLink := fileUrl
  ({ sourceDocument := CellValue.str markdownLink
   , createdDate := CellValue.str createdDate
   , postedDate := CellValue.str postedDate
   , summary := CellValue.obj summaryResponse }, [q1, q2, q3])

/-- `extract_content_from_documents` (lines 44-108): group, then process
each group in dict order, appending each row to `extracted_data`.  The
second component is the concatenated trace of all oracle queries issued. -/
def extract_content_from_documents (oracle : Oracle)
    (documents : List RawDocumentRecord) :
    List ExtractionRecord × List String :=
  (docsByFilename documents).foldl
    (fun acc g =>
      let pg := processGroup oracle g.1 g.2
      (acc.1 ++ [pg.1], acc.2 ++ pg.2))
    ([], [])

/-- The spreadsheet written by `df.to_excel(..., index=False)`: a header
row followed by one row per record. -/
structure Spreadsheet where
  header : List String
  rows : List (List CellValue)
deriving DecidableEq, Repr

/-- The column order of the DataFrame built from the row dicts: the key
insertion order of the first dict. -/
def excelHeader : List String :=
  ["Source Document", "Created Date", "Posted Date", "Summary"]

/-- One spreadsheet row from one record, in the fixed column order. -/
def rowOfRecord (r : ExtractionRecord) : List CellValue :=
  [r.sourceDocument, r.createdDate, r.postedDate, r.summary]

/-- The observable outcome of `export_to_excel`: the file written (if any)
and the console messages printed. -/
structure ExcelResult where
  file : Option Spreadsheet
  messages : List String
deriving DecidableEq, Repr

/-- `OUTPUT_EXCEL_FILE` (line 28). -/
def OUTPUT_EXCEL_FILE : String := "document_dates_report.xlsx"

/-- `export_to_excel` (lines 111-125): on an empty list print the notice
and return without writing; otherwise write header plus one row per
record. -/
def export_to_excel (data : List ExtractionRecord) : ExcelResult :=
  if data.isEmpty then
    { file := none
    , messages := ["No data was extracted. Cannot generate Excel file."] }
  else
    { file := some { header := excelHeader, rows := data.map rowOfRecord }
    , messages :=
        [ "\nExporting extracted data to Excel..."
        , "Successfully created report: 'document_dates_report.xlsx'" ] }

/-- The observable outcome of `export_to_html`: the rendered table (if
any) and the warning notice (if any). -/
structure HtmlOutput where
  table : Option (List (List CellValue))
  warning : Option String
deriving DecidableEq, Repr

/-- `export_to_html` (lines 128-153).  The Python body never reads its
parameter `data`: both the truthiness test and the DataFrame read the
module-global `extracted_data`, here made explicit as the first
argument. -/
def export_to_html (extracted_data : List ExtractionRecord)
    (data : List ExtractionRecord) : HtmlOutput :=
  if !extracted_data.isEmpty then
    { table := some (extracted_data.map rowOfRecord), warning := none }
  else
    { table := none
    , warning := some "Could not extract any data from the uploaded files." }

/-- What one whole run under `if __name__ == main` observably does. -/
structure RunResult where
  messages : List String
  extractedData : Option (List ExtractionRecord)
  excelFile : Option Spreadsheet
  htmlOutput : Option HtmlOutput
  oracleQueries : List String
deriving DecidableEq, Repr

/-- The main block (lines 157-172).  `dirExists` models
`os.path.exists(PDF_DATA_DIR)`, `dirListing` models `os.listdir`,
`documents` is what `load_documents_from_directory` returns on the happy
path, and the oracle stands for the LLM stack.  In the main block the
module-global `extracted_data` read by `export_to_html` is the value just
assigned, so the global argument aliases the records. -/
def mainRun (dirExists : Bool) (dirListing : List String)
    (documents : List RawDocumentRecord) (oracle : Oracle) : RunResult :=
  if !dirExists || dirListing.isEmpty then
    { messages :=
        [ "Error: The directory 'data' is empty or does not exist."
        , "Please create it and add your PDF files." ]
    , extractedData := none
    , excelFile := none
    , htmlOutput := none
    , oracleQueries := [] }
  else
    let ed := extract_content_from_documents oracle documents
    let excel := export_to_excel ed.1
    let html := export_to_html ed.1 ed.1
    { messages := excel.messages
    , extractedData := some ed.1
    , excelFile := excel.file
    , htmlOutput := some html
    , oracleQueries := ed.2 }

/-- Module-level configuration (lines 17-21):
`os.environ["OPENAI_API_KEY"] = os.getenv('OPENAI_API_KEY')` raises a
`TypeError` when the key is absent from the environment (after the
env-file has been merged in by `load_dotenv`), because `os.environ`
rejects a `None` value; otherwise the environment is updated with the same
value and startup proceeds. -/
def moduleConfigInit (env : String → Option String) :
    Except String (String → Option String) :=
  match env "OPENAI_API_KEY" with
  | none => Except.error "TypeError: str expected, not NoneType"
  | some k =>
      Except.ok (fun name => if name = "OPENAI_API_KEY" then some k else env name)

/-- The whole program: module initialization first; only if it succeeds
does the main block load and process anything. -/
def programRun (env : String → Option String) (dirExists : Bool)
    (dirListing : List String) (documents : List RawDocumentRecord)
    (oracle : Oracle) : Except String RunResult :=
  match moduleConfigInit env with
  | Except.error e => Except.error e
  | Except.ok _ => Except.ok (mainRun dirExists dirListing documents oracle)

/-- A fallible oracle for the failure-semantics claim: any query may raise
(modelled as `Except.error`). -/
def OracleE : Type :=
  List RawDocumentRecord → String → Except String Response

/-- The loop body of `extract_content_from_documents` under a fallible
oracle: the three queries are issued in source order and the first raised
error aborts the group with no record assembled. -/
def processGroupE (oracle : OracleE) (filename : String)
    (docList : List RawDocumentRecord) : Except String ExtractionRecord :=
  match oracle docList createdDatePrompt with
  | Except.error e => Except.error e
  | Except.ok createdDateResponse =>
    match oracle docList postedDatePrompt with
    | Except.error e => Except.error e
    | Except.ok postedDateResponse =>
      match oracle docList summaryPrompt with
      | Except.error e => Except.error e
      | Except.ok summaryResponse =>
          Except.ok
            { sourceDocument := CellValue.str (replaceSpaces filename)
            , createdDate := CellValue.str (pyStrip createdDateResponse.display)
            , postedDate := CellValue.str (pyStrip postedDateResponse.display)
            , summary := CellValue.obj summaryResponse }

/-- The group loop under a fallible oracle: groups are processed in order
and an error raised in any group propagates out of the whole call, so no
record list is returned at all. -/
def extractGroupsE (oracle : OracleE) :
    List (String × List RawDocumentRecord) →
    Except String (List ExtractionRecord)
  | [] => Except.ok []
  | g :: gs =>
    match processGroupE oracle g.1 g.2 with
    | Except.error e => Except.error e
    | Except.ok r =>
      match extractGroupsE oracle gs with
      | Except.error e => Except.error e
      | Except.ok rs => Except.ok (r :: rs)

/-- `extract_content_from_documents` under a fallible oracle. -/
def extract_content_from_documentsE (oracle : OracleE)
    (documents : List RawDocumentRecord) :
    Except String (List ExtractionRecord) :=
  extractGroupsE oracle (docsByFilename documents)

/-- A concrete loaded record used to evaluate the pipeline on an input. -/
def sampleDoc : RawDocumentRecord :=
  { text := "some text", metadata := [("file_name", "a.pdf")] }

/-- A concrete oracle whose answer depends only on the prompt: the responses
of the worked example in the spec. -/
def sampleOracle : Oracle := fun _ q =>
  if q = createdDatePrompt then { display := "2023-01-01", sourceNodes := [] }
  else if q = postedDatePrompt then { display := "2023-02-15", sourceNodes := [] }
  else { display := "- point one\n- point two", sourceNodes := [] }

/-- A concrete failing oracle: every query raises. -/
def failingOracle : OracleE := fun _ _ => Except.error "provider unavailable"

/-- A concrete extraction record used to exercise the exporters. -/
def sampleRecord : ExtractionRecord :=
  { sourceDocument := CellValue.str "a.pdf"
  , createdDate := CellValue.str "2023-01-01"
  , postedDate := CellValue.str "2023-02-15"
  , summary := CellValue.obj { display := "- point one", sourceNodes := [] } }

/-- The key list of a grouping, in construction order. -/
def groupKeys (gs : List (String × List RawDocumentRecord)) : List String :=
  gs.map Prod.fst

/-- First-seen deduplication of a key list, continuing from `acc`. -/
def firstSeenAux (acc : List String) (l : List String) : List String :=
  l.foldl (fun a k => if k ∈ a then a else a ++ [k]) acc

/-- The distinct keys of `l` in first-seen order. -/
def firstSeen (l : List String) : List String :=
  firstSeenAux [] l

lemma insertDoc_keys (gs : List (String × List RawDocumentRecord))
    (k : String) (d : RawDocumentRecord) :
    groupKeys (insertDoc gs k d)
      = if k ∈ groupKeys gs then groupKeys gs else groupKeys gs ++ [k] := by
  induction gs with
  | nil => simp [insertDoc, groupKeys]
  | cons p rest ih =>
      obtain ⟨k', ds⟩ := p
      by_cases h : k' = k
      · subst h
        simp [insertDoc, groupKeys]
      · have hne : ¬ k = k' := fun hc => h hc.symm
        simp only [insertDoc, groupKeys, List.map_cons, if_neg h,
          List.mem_cons, hne, false_or]
        rw [show groupKeys (insertDoc rest k d)
              = List.map Prod.fst (insertDoc rest k d) from rfl] at ih
        rw [ih]
        by_cases hm : k ∈ List.map Prod.fst rest
        · simp [groupKeys, hm]
        · simp [groupKeys, hm]

lemma foldl_insert_keys (docs : List RawDocumentRecord)
    (gs : List (String × List RawDocumentRecord)) :
    groupKeys (docs.foldl (fun a d => insertDoc a (keyOf d) d) gs)
      = firstSeenAux (groupKeys gs) (docs.map keyOf) := by
  induction docs generalizing gs with
  | nil => simp [firstSeenAux]
  | cons d ds ih =>
      simp only [List.foldl_cons, List.map_cons, firstSeenAux, ih]
      rw [insertDoc_keys]

lemma docsByFilename_keys (documents : List RawDocumentRecord) :
    groupKeys (docsByFilename documents) = firstSeen (documents.map keyOf) := by
  simpa [docsByFilename, firstSeen, groupKeys] using
    foldl_insert_keys documents []

lemma firstSeenAux_nodup (l : List String) (acc : List String)
    (h : acc.Nodup) : (firstSeenAux acc l).Nodup := by
  induction l generalizing acc with
  | nil => simpa [firstSeenAux]
  | cons k ks ih =>
      by_cases hm : k ∈ acc
      · simpa [firstSeenAux, hm] using ih acc h
      · have hnd : (acc ++ [k]).Nodup := by
          simp [List.nodup_append, h, hm]
        simpa [firstSeenAux, hm] using ih (acc ++ [k]) hnd

lemma firstSeenAux_toFinset (l : List String) (acc : List String) :
    (firstSeenAux acc l).toFinset = acc.toFinset ∪ l.toFinset := by
  induction l generalizing acc with
  | nil => simp [firstSeenAux]
  | cons k ks ih =>
      simp only [firstSeenAux, List.foldl_cons]
      by_cases hm : k ∈ acc
      · have h1 : (firstSeenAux acc ks).toFinset = acc.toFinset ∪ ks.toFinset :=
          ih acc
        have hk : k ∈ acc.toFinset := by simpa using hm
        simp only [firstSeenAux] at h1
        rw [if_pos hm, h1, List.toFinset_cons, Finset.union_insert,
          Finset.insert_eq_of_mem (by simp [hk])]
      · have h1 : (firstSeenAux (acc ++ [k]) ks).toFinset
            = (acc ++ [k]).toFinset ∪ ks.toFinset := ih (acc ++ [k])
        simp only [firstSeenAux] at h1
        rw [if_neg hm, h1, List.toFinset_append, List.toFinset_cons,
          Finset.union_insert]
        simp [Finset.union_comm, Finset.union_assoc, Finset.insert_eq,
          Finset.union_left_comm]

lemma insertDoc_inv (gs : List (String × List RawDocumentRecord))
    (d : RawDocumentRecord)
    (hinv : ∀ p ∈ gs, ∀ x ∈ p.2, keyOf x = p.1) :
    ∀ p ∈ insertDoc gs (keyOf d) d, ∀ x ∈ p.2, keyOf x = p.1 := by
  induction gs with
  | nil =>
      intro p hp x hx
      simp only [insertDoc, List.mem_singleton] at hp
      subst hp
      simp only [List.mem_singleton] at hx
      subst hx
      rfl
  | cons q rest ih =>
      obtain ⟨k', ds'⟩ := q
      intro p hp x hx
      by_cases h : k' = keyOf d
      · simp only [insertDoc, if_pos h] at hp
        rcases List.mem_cons.mp hp with hh | ht
        · subst hh
          rcases List.mem_append.mp hx with hx1 | hx2
          · exact hinv (k', ds') (List.mem_cons_self _ _) x hx1
          · simp only [List.mem_singleton] at hx2
            subst hx2
            exact h.symm
        · exact hinv p (List.mem_cons_of_mem _ ht) x hx
      · simp only [insertDoc, if_neg h] at hp
        rcases List.mem_cons.mp hp with hh | ht
        · subst hh
          exact hinv (k', ds') (List.mem_cons_self _ _) x hx
        · exact ih (fun q hq => hinv q (List.mem_cons_of_mem _ hq)) p ht x hx

lemma foldl_insert_inv (docs : List RawDocumentRecord)
    (gs : List (String × List RawDocumentRecord))
    (hinv : ∀ p ∈ gs, ∀ x ∈ p.2, keyOf x = p.1) :
    ∀ p ∈ docs.foldl (fun a x => insertDoc a (keyOf x) x) gs,
      ∀ x ∈ p.2, keyOf x = p.1 := by
  induction docs generalizing gs with
  | nil => simpa using hinv
  | cons d dd ih =>
      intro p hp x hx
      exact ih (insertDoc gs (keyOf d) d) (insertDoc_inv gs d hinv) p
        (by simpa using hp) x hx

lemma docsByFilename_inv (documents : List RawDocumentRecord) :
    ∀ p ∈ docsByFilename documents, ∀ x ∈ p.2, keyOf x = p.1 :=
  foldl_insert_inv documents [] (by simp)

lemma insertDoc_mem_self (gs : List (String × List RawDocumentRecord))
    (k : String) (d : RawDocumentRecord) :
    ∃ ds, (k, ds) ∈ insertDoc gs k d ∧ d ∈ ds := by
  induction gs with
  | nil => exact ⟨[d], by simp [insertDoc], by simp⟩
  | cons q rest ih =>
      obtain ⟨k', ds'⟩ := q
      by_cases h : k' = k
      · exact ⟨ds' ++ [d], by simp [insertDoc, h], by simp⟩
      · obtain ⟨ds, h1, h2⟩ := ih
        exact ⟨ds, by simp [insertDoc, h, h1], h2⟩

lemma insertDoc_mem_mono (gs : List (String × List RawDocumentRecord))
    (k : String) (d : RawDocumentRecord) (k2 : String)
    (ds2 : List RawDocumentRecord) (x : RawDocumentRecord)
    (hp : (k2, ds2) ∈ gs) (hx : x ∈ ds2) :
    ∃ ds, (k2, ds) ∈ insertDoc gs k d ∧ x ∈ ds := by
  induction gs with
  | nil => cases hp
  | cons q rest ih =>
      obtain ⟨k', ds'⟩ := q
      by_cases h : k' = k
      · rcases List.mem_cons.mp hp with hh | ht
        · injection hh with hk hds
          subst hk
          subst hds
          exact ⟨ds2 ++ [d], by simp [insertDoc, h],
            List.mem_append_left _ hx⟩
        · exact ⟨ds2, by simp [insertDoc, h, ht], hx⟩
      · rcases List.mem_cons.mp hp with hh | ht
        · injection hh with hk hds
          subst hk
          subst hds
          exact ⟨ds2, by simp [insertDoc, h], hx⟩
        · obtain ⟨ds, h1, h2⟩ := ih ht
          exact ⟨ds, by simp [insertDoc, h, h1], h2⟩

lemma foldl_insert_mem_mono (docs : List RawDocumentRecord)
    (gs : List (String × List RawDocumentRecord)) (k2 : String)
    (ds2 : List RawDocumentRecord) (x : RawDocumentRecord)
    (hp : (k2, ds2) ∈ gs) (hx : x ∈ ds2) :
    ∃ ds, (k2, ds) ∈ docs.foldl (fun a y => insertDoc a (keyOf y) y) gs
      ∧ x ∈ ds := by
  induction docs generalizing gs ds2 with
  | nil => exact ⟨ds2, by simpa using hp, hx⟩
  | cons d dd ih =>
      obtain ⟨ds, h1, h2⟩ := insertDoc_mem_mono gs (keyOf d) d k2 ds2 x hp hx
      obtain ⟨ds3, h3, h4⟩ := ih (insertDoc gs (keyOf d) d) ds h1 h2
      exact ⟨ds3, by simpa using h3, h4⟩

lemma foldl_insert_mem (docs : List RawDocumentRecord)
    (gs : List (String × List RawDocumentRecord)) (d : RawDocumentRecord) :
    d ∈ docs →
    ∃ ds, (keyOf d, ds) ∈ docs.foldl (fun a y => insertDoc a (keyOf y) y) gs
      ∧ d ∈ ds := by
  induction docs generalizing gs with
  | nil => intro hd; cases hd
  | cons d' dd ih =>
      intro hd
      rcases List.mem_cons.mp hd with h | h
      · subst h
        obtain ⟨ds, h1, h2⟩ := insertDoc_mem_self gs (keyOf d) d
        obtain ⟨ds3, h3, h4⟩ :=
          foldl_insert_mem_mono dd (insertDoc gs (keyOf d) d) (keyOf d) ds d h1 h2
        exact ⟨ds3, by simpa using h3, h4⟩
      · obtain ⟨ds, h1, h2⟩ := ih (insertDoc gs (keyOf d') d') h
        exact ⟨ds, by simpa using h1, h2⟩

lemma docsByFilename_mem (documents : List RawDocumentRecord)
    (d : RawDocumentRecord) (hd : d ∈ documents) :
    ∃ ds, (keyOf d, ds) ∈ docsByFilename documents ∧ d ∈ ds :=
  foldl_insert_mem documents [] d hd

lemma mem_eq_of_nodup_keys (gs : List (String × List RawDocumentRecord))
    (hnd : (groupKeys gs).Nodup) (k : String)
    (ds1 ds2 : List RawDocumentRecord)
    (h1 : (k, ds1) ∈ gs) (h2 : (k, ds2) ∈ gs) : ds1 = ds2 := by
  induction gs with
  | nil => cases h1
  | cons q rest ih =>
      obtain ⟨k', ds'⟩ := q
      simp only [groupKeys, List.map_cons, List.nodup_cons] at hnd
      rcases List.mem_cons.mp h1 with ha | ha <;>
        rcases List.mem_cons.mp h2 with hb | hb
      · injection ha with hk1 hd1
        injection hb with hk2 hd2
        rw [hd1, hd2]
      · injection ha with hk1 hd1
        subst hk1
        exact absurd (List.mem_map_of_mem Prod.fst hb) hnd.1
      · injection hb with hk2 hd2
        subst hk2
        exact absurd (List.mem_map_of_mem Prod.fst ha) hnd.1
      · exact ih hnd.2 ha hb

lemma docsByFilename_nodup_keys (documents : List RawDocumentRecord) :
    (groupKeys (docsByFilename documents)).Nodup := by
  rw [docsByFilename_keys]
  exact firstSeenAux_nodup _ [] (by simp)

lemma extract_go (oracle : Oracle)
    (gs : List (String × List RawDocumentRecord))
    (a : List ExtractionRecord × List String) :
    gs.foldl (fun acc g =>
        let pg := processGroup oracle g.1 g.2
        (acc.1 ++ [pg.1], acc.2 ++ pg.2)) a
      = (a.1 ++ gs.map (fun g => (processGroup oracle g.1 g.2).1),
         a.2 ++ (gs.map (fun g => (processGroup oracle g.1 g.2).2)).flatten) := by
  induction gs generalizing a with
  | nil => simp
  | cons g gg ih => simp [ih, List.append_assoc]

lemma extract_fst (oracle : Oracle) (documents : List RawDocumentRecord) :
    (extract_content_from_documents oracle documents).1
      = (docsByFilename documents).map
          (fun g => (processGroup oracle g.1 g.2).1) := by
  rw [extract_content_from_documents, extract_go]
  simp

lemma extract_snd (oracle : Oracle) (documents : List RawDocumentRecord) :
    (extract_content_from_documents oracle documents).2
      = ((docsByFilename documents).map
          (fun g => (processGroup oracle g.1 g.2).2)).flatten := by
  rw [extract_content_from_documents, extract_go]
  simp

lemma extract_length (oracle : Oracle) (documents : List RawDocumentRecord) :
    (extract_content_from_documents oracle documents).1.length
      = (documents.map keyOf).toFinset.card := by
  rw [extract_fst, List.length_map]
  have h1 : (docsByFilename documents).length
      = (groupKeys (docsByFilename documents)).length := by
    simp [groupKeys]
  rw [h1, ← List.toFinset_card_of_nodup (docsByFilename_nodup_keys documents),
    docsByFilename_keys, firstSeen, firstSeenAux_toFinset]
  simp

lemma replaceSpacesAux_eq (l : List Char) :
    replaceSpacesAux l
      = (l.map (fun c => if c = ' ' then ['%', '2', '0'] else [c])).flatten := by
  induction l with
  | nil => rfl
  | cons c cs ih =>
      by_cases h : c = ' ' <;> simp [replaceSpacesAux, h, ih]

lemma processGroupE_error (oracle : OracleE) (filename : String)
    (docList : List RawDocumentRecord) (e : String)
    (h : oracle docList createdDatePrompt = Except.error e
      ∨ oracle docList postedDatePrompt = Except.error e
      ∨ oracle docList summaryPrompt = Except.error e) :
    ∃ e2, processGroupE oracle filename docList = Except.error e2 := by
  rcases h with h | h | h
  · exact ⟨e, by simp [processGroupE, h]⟩
  · cases h1 : oracle docList createdDatePrompt with
    | error e1 => exact ⟨e1, by simp [processGroupE, h1]⟩
    | ok r1 => exact ⟨e, by simp [processGroupE, h1, h]⟩
  · cases h1 : oracle docList createdDatePrompt with
    | error e1 => exact ⟨e1, by simp [processGroupE, h1]⟩
    | ok r1 =>
        cases h2 : oracle docList postedDatePrompt with
        | error e2 => exact ⟨e2, by simp [processGroupE, h1, h2]⟩
        | ok r2 => exact ⟨e, by simp [processGroupE, h1, h2, h]⟩

lemma extractGroupsE_error (oracle : OracleE)
    (gs : List (String × List RawDocumentRecord))
    (h : ∃ p ∈ gs, ∃ e, processGroupE oracle p.1 p.2 = Except.error e) :
    ∃ e, extractGroupsE oracle gs = Except.error e := by
  induction gs with
  | nil =>
      obtain ⟨p, hp, _⟩ := h
      cases hp
  | cons g gg ih =>
      cases hg : processGroupE oracle g.1 g.2 with
      | error e => exact ⟨e, by simp [extractGroupsE, hg]⟩
      | ok r =>
          obtain ⟨p, hp, e, hpe⟩ := h
          rcases List.mem_cons.mp hp with h1 | h1
          · subst h1
            rw [hg] at hpe
            cases hpe
          · obtain ⟨e2, h2⟩ := ih ⟨p, h1, e, hpe⟩
            exact ⟨e2, by simp [extractGroupsE, hg, h2]⟩

/-- C2 counterexample: the trace of queries the orchestrator issues for a
concrete group is not the spec's list of three texts, because the third
prompt in the source spells `Haedlines` where the spec says `Headlines`. -/
theorem C2_counterexample :
    (processGroup sampleOracle "a.pdf" [sampleDoc]).2
      ≠ [ "What is the creation date mentioned in this document? Respond with only the date and nothing else."
        , "What is the posted date mentioned in this document? Respond with only the date and nothing else."
        , "What is the summary in this document? Respond with only summary from Headlines as bullet points line by line." ] := by
  decide

/-- C2 (amended): for every document group the orchestrator issues exactly
three queries, in order, with the fixed prompt texts of the source - the
third reading `Haedlines` (sic) where the spec writes `Headlines`. -/
theorem C2_three_fixed_queries (oracle : Oracle) (filename : String)
    (docList : List RawDocumentRecord) :
    (processGroup oracle filename docList).2
      = [ "What is the creation date mentioned in this document? Respond with only the date and nothing else."
        , "What is the posted date mentioned in this document? Respond with only the date and nothing else."
        , "What is the summary in this document? Respond with only summary from Haedlines as bullet points line by line." ]
      ∧ (processGroup oracle filename docList).2.length = 3 :=
  ⟨rfl, rfl⟩

/-- C3 counterexample: on the spec's worked example the two date cells are
the coerced, trimmed strings, but the `Summary` cell is not the display
string `- point one\n- point two`: the source stores the raw response
object without `str` coercion. -/
theorem C3_counterexample :
    ((processGroup sampleOracle "doc.pdf" [sampleDoc]).1).summary
        ≠ CellValue.str "- point one\n- point two"
      ∧ ((processGroup sampleOracle "doc.pdf" [sampleDoc]).1).createdDate
        = CellValue.str "2023-01-01"
      ∧ ((processGroup sampleOracle "doc.pdf" [sampleDoc]).1).postedDate
        = CellValue.str "2023-02-15" := by
  refine ⟨by decide, by decide, by decide⟩

/-- C3 (amended): for every group, the two date responses are coerced to
display strings with surrounding whitespace trimmed, while the summary
response is stored as the raw response object - uncoerced and untrimmed,
its display text (bullet formatting included) preserved inside the
object. -/
theorem C3_field_coercions (oracle : Oracle) (filename : String)
    (docList : List RawDocumentRecord) :
    ((processGroup oracle filename docList).1).createdDate
        = CellValue.str (pyStrip (oracle docList createdDatePrompt).display)
      ∧ ((processGroup oracle filename docList).1).postedDate
        = CellValue.str (pyStrip (oracle docList postedDatePrompt).display)
      ∧ ((processGroup oracle filename docList).1).summary
        = CellValue.obj (oracle docList summaryPrompt) :=
  ⟨rfl, rfl, rfl⟩

/-- C4: the `source_document` cell equals the group filename with every
space replaced by the three characters `%20` and every other character
kept unchanged - no other escaping. -/
theorem C4_source_document_encoding (oracle : Oracle) (filename : String)
    (docList : List RawDocumentRecord) :
    ((processGroup oracle filename docList).1).sourceDocument
      = CellValue.str (String.mk ((filename.toList.map
          (fun c => if c = ' ' then ['%', '2', '0'] else [c])).flatten)) := by
  show CellValue.str (replaceSpaces filename) = _
  rw [replaceSpaces, replaceSpacesAux_eq]

/-- C5: if the oracle raises on any of the three queries of some document
group, the extraction produces no record for that group - the error
propagates out of the whole call, which returns no record list at all,
with no retry. -/
theorem C5_oracle_error_propagates (oracle : OracleE)
    (documents : List RawDocumentRecord)
    (h : ∃ p ∈ docsByFilename documents, ∃ e,
        oracle p.2 createdDatePrompt = Except.error e
        ∨ oracle p.2 postedDatePrompt = Except.error e
        ∨ oracle p.2 summaryPrompt = Except.error e) :
    ∃ e, extract_content_from_documentsE oracle documents
      = Except.error e := by
  obtain ⟨p, hp, e, he⟩ := h
  obtain ⟨e2, h2⟩ := processGroupE_error oracle p.1 p.2 e he
  exact extractGroupsE_error oracle _ ⟨p, hp, e2, h2⟩

/-- C5 witness: a concrete run with an oracle that raises on every query
aborts with an error. -/
theorem C5_witness :
    ∃ e, extract_content_from_documentsE failingOracle [sampleDoc]
      = Except.error e :=
  C5_oracle_error_propagates failingOracle [sampleDoc]
    ⟨("a.pdf", [sampleDoc]), by decide, "provider unavailable", Or.inl rfl⟩

/-- C6: on an empty record sequence `export_to_excel` writes no file and
prints the nothing-to-export notice; on a non-empty sequence it writes a
file with the fixed column header and one row per record. -/
theorem C6_export_excel_contract (data : List ExtractionRecord) :
    (data = [] →
      (export_to_excel data).file = none
        ∧ (export_to_excel data).messages
            = ["No data was extracted. Cannot generate Excel file."])
    ∧ (data ≠ [] →
      (export_to_excel data).file
        = some (Spreadsheet.mk
            ["Source Document", "Created Date", "Posted Date", "Summary"]
            (data.map rowOfRecord))
        ∧ (data.map rowOfRecord).length = data.length) := by
  constructor
  · intro h
    subst h
    exact ⟨rfl, rfl⟩
  · intro h
    have hne : data.isEmpty = false := by
      cases data with
      | nil => exact absurd rfl h
      | cons a l => rfl
    refine ⟨?_, by simp⟩
    simp [export_to_excel, hne, excelHeader]

/-- C7: with the input directory missing or its listing empty, the run
aborts up front with the user-facing message: no record is produced, no
spreadsheet is written, no table is rendered and the oracle is never
queried. -/
theorem C7_empty_input_aborts (dirExists : Bool) (dirListing : List String)
    (documents : List RawDocumentRecord) (oracle : Oracle)
    (h : dirExists = false ∨ dirListing = []) :
    mainRun dirExists dirListing documents oracle
      = { messages :=
            [ "Error: The directory 'data' is empty or does not exist."
            , "Please create it and add your PDF files." ]
        , extractedData := none
        , excelFile := none
        , htmlOutput := none
        , oracleQueries := [] } := by
  rcases h with h | h <;> simp [mainRun, h]

/-- C7 witness: a concrete run over a missing directory aborts up front. -/
theorem C7_witness :
    mainRun false [] [] sampleOracle
      = { messages :=
            [ "Error: The directory 'data' is empty or does not exist."
            , "Please create it and add your PDF files." ]
        , extractedData := none
        , excelFile := none
        , htmlOutput := none
        , oracleQueries := [] } :=
  C7_empty_input_aborts false [] [] sampleOracle (Or.inl rfl)

/-- C8: when `OPENAI_API_KEY` is absent from the process environment (after
the env-file merge), module configuration raises before anything runs: the
program returns the configuration error and produces no run result, so no
document is loaded or processed. -/
theorem C8_missing_credential_fails_fast (env : String → Option String)
    (dirExists : Bool) (dirListing : List String)
    (documents : List RawDocumentRecord) (oracle : Oracle)
    (h : env "OPENAI_API_KEY" = none) :
    programRun env dirExists dirListing documents oracle
      = Except.error "TypeError: str expected, not NoneType" := by
  simp [programRun, moduleConfigInit, h]

/-- C8 witness: a concrete run with an empty environment fails during
configuration. -/
theorem C8_witness :
    programRun (fun _ => none) true ["a.pdf"] [sampleDoc] sampleOracle
      = Except.error "TypeError: str expected, not NoneType" :=
  C8_missing_credential_fails_fast (fun _ => none) true ["a.pdf"]
    [sampleDoc] sampleOracle rfl

/-- C10: `export_to_html` ignores its `data` parameter entirely: with the
module global fixed, any two argument values give identical output, and
both the emptiness check and the rendered table read the global. -/
theorem C10_html_ignores_parameter (g d1 d2 : List ExtractionRecord) :
    export_to_html g d1 = export_to_html g d2
      ∧ (export_to_html g d1).table
        = (if g.isEmpty then none else some (g.map rowOfRecord))
      ∧ (export_to_html g d1).warning
        = (if g.isEmpty then
            some "Could not extract any data from the uploaded files."
          else none) := by
  refine ⟨rfl, ?_, ?_⟩ <;>
    cases h : g.isEmpty <;> simp [export_to_html, h]

/-- C1: on a non-empty input, extraction yields exactly one record per
distinct basename: the record count (and the exported row count) equals
the number of distinct basenames, every loaded record lies in exactly one
group, each group is keyed by its members' basename, and a record with no
`file_name` metadata falls in the sentinel group `Unknown File`. -/
theorem C1_one_record_per_basename (oracle : Oracle)
    (documents : List RawDocumentRecord) (hne : documents ≠ []) :
    (extract_content_from_documents oracle documents).1.length
        = (documents.map keyOf).toFinset.card
      ∧ (∀ d ∈ documents, ∃ p,
          (p ∈ docsByFilename documents ∧ d ∈ p.2)
          ∧ ∀ q, q ∈ docsByFilename documents → d ∈ q.2 → q = p)
      ∧ (∀ p ∈ docsByFilename documents, ∀ x ∈ p.2, keyOf x = p.1)
      ∧ (∀ d : RawDocumentRecord, d.metadata.lookup "file_name" = none →
          keyOf d = "Unknown File")
      ∧ ∃ s, (export_to_excel
            (extract_content_from_documents oracle documents).1).file = some s
          ∧ s.rows.length = (documents.map keyOf).toFinset.card := by
  have hlen := extract_length oracle documents
  refine ⟨hlen, ?_, docsByFilename_inv documents, ?_, ?_⟩
  · intro d hd
    obtain ⟨ds, hmem, hds⟩ := docsByFilename_mem documents d hd
    refine ⟨(keyOf d, ds), ⟨hmem, hds⟩, ?_⟩
    intro q hq hdq
    have hk : keyOf d = q.1 := docsByFilename_inv documents q hq d hdq
    have hq2 : (keyOf d, q.2) ∈ docsByFilename documents := by
      rw [hk]
      exact hq
    have hq3 : q.2 = ds :=
      mem_eq_of_nodup_keys _ (docsByFilename_nodup_keys documents) _ _ _
        hq2 hmem
    exact Prod.ext hk.symm hq3
  · intro d h
    have hdg : dictGet d.metadata "file_name" "Unknown File"
        = "Unknown File" := by
      simp [dictGet, h]
    unfold keyOf
    rw [hdg]
    decide
  · have hpos : 0 < (documents.map keyOf).toFinset.card := by
      obtain ⟨d, hd⟩ := List.exists_mem_of_ne_nil documents hne
      refine Finset.card_pos.mpr ⟨keyOf d, ?_⟩
      simp only [List.mem_toFinset, List.mem_map]
      exact ⟨d, hd, rfl⟩
    have hne2 : (extract_content_from_documents oracle documents).1.isEmpty
        = false := by
      cases hrec : (extract_content_from_documents oracle documents).1 with
      | nil =>
          rw [hrec] at hlen
          simp at hlen
          omega
      | cons a l => rfl
    refine ⟨Spreadsheet.mk excelHeader
      ((extract_content_from_documents oracle documents).1.map rowOfRecord),
      ?_, ?_⟩
    · simp [export_to_excel, hne2]
    · simpa using hlen

/-- C1 witness: on a concrete one-document input the record count equals
the number of distinct basenames. -/
theorem C1_witness :
    (extract_content_from_documents sampleOracle [sampleDoc]).1.length
      = ([sampleDoc].map keyOf).toFinset.card :=
  (C1_one_record_per_basename sampleOracle [sampleDoc] (by simp)).1

/-- C9: the pipeline is deterministic: equal inputs under the same oracle
give identical spreadsheet output, the records standing in the first-seen
group order the grouper established. -/
theorem C9_deterministic_output (oracle : Oracle)
    (docs1 docs2 : List RawDocumentRecord) (h : docs1 = docs2) :
    export_to_excel (extract_content_from_documents oracle docs1).1
        = export_to_excel (extract_content_from_documents oracle docs2).1
      ∧ (extract_content_from_documents oracle docs1).1
          = (docsByFilename docs1).map
              (fun g => (processGroup oracle g.1 g.2).1)
      ∧ groupKeys (docsByFilename docs1) = firstSeen (docs1.map keyOf) := by
  subst h
  exact ⟨rfl, extract_fst oracle docs1, docsByFilename_keys docs1⟩

/-- C9 witness: two runs on the same concrete input give the same
spreadsheet. -/
theorem C9_witness :
    export_to_excel
        (extract_content_from_documents sampleOracle [sampleDoc]).1
      = export_to_excel
        (extract_content_from_documents sampleOracle [sampleDoc]).1 :=
  (C9_deterministic_output sampleOracle [sampleDoc] [sampleDoc] rfl).1

end CVApp
